import Mathlib

/-! Verification of the jamesbot trading-analysis repository.

Shallow embedding of the reconciliation and analytics engine:

* `live_trading_performance_analyzer.py` — intention/transaction matching
  (`_trades_match`, `match_trades`, `_parse_executed_trade`);
* `historical_performance_analyzer.py` — ledger normalization
  (`fetch_extended_trade_history`, `_fetch_current_open_trades`), the log
  parser `parse_bot_decisions`, and the profit factor of
  `analyze_what_worked_vs_failed`;
* `comprehensive_trading_analysis.py` — the profit factor of
  `analyze_trading_patterns`;
* `confidence_vs_winrate_analysis.py` — the correlation reported by
  `analyze_confidence_vs_winrate`.

Conventions of the embedding:

* Python floats are modelled as `ℚ`; timestamps as `ℚ` (epoch seconds, so
  `datetime` subtraction followed by `.total_seconds()` is plain `ℚ`
  subtraction).
* Fallible Python code (a raised exception) is modelled with
  `Except Unit` / `Option`: `Except.error ()` (resp. `none`) marks the
  exception path, and the callers propagate or swallow it exactly where the
  Python `try`/`except` blocks do.
* Regular-expression searches of the source are implemented as explicit
  left-to-right scanners over `List Char`, with the ASCII fragment of the
  character classes (`\d` = `0`-`9`, `\w` = ASCII letters, digits, `_`);
  every pattern in the source uses character classes disjoint from the
  literal separators that follow them, so greedy maximal-munch scanning
  agrees with the backtracking regex engine on these patterns.
-/

namespace JamesBot

/-! Live analyzer data model (`live_trading_performance_analyzer.py`) -/

/-- The `OANDATransaction` dataclass (lines 27-38): one normalized OANDA ledger
record.  `time` is epoch seconds as `ℚ`; numeric fields are `ℚ`. -/
structure OANDATransaction where
  transaction_id : String
  time : ℚ
  instrument : String
  units : ℚ
  price : ℚ
  pl : ℚ
  transaction_type : String
  reason : String
  account_balance : ℚ
  deriving DecidableEq, Repr

/-- The `BotTradeIntention` dataclass (lines 40-55): one bot intention parsed
from the Railway logs. -/
structure BotTradeIntention where
  timestamp : ℚ
  pair : String
  signal_type : String
  confidence : ℚ
  entry_price : ℚ
  target_price : ℚ
  stop_loss : ℚ
  expected_units : Int
  expected_profit : ℚ
  expected_loss : ℚ
  risk_reward_ratio : ℚ
  rejection_reason : Option String
  executed : Bool
  deriving DecidableEq, Repr

/-- Python `s.replace('/', '_')` for single characters: map every `/` of the
string to `_`. -/
def replaceSlashUnderscore (s : String) : String :=
  String.mk (s.data.map (fun c => if c = '/' then '_' else c))

/-- Python's builtin `abs` on a float, by its sign test. -/
def pabs (q : ℚ) : ℚ := if q < 0 then -q else q

theorem pabs_eq_abs (q : ℚ) : pabs q = |q| := by
  unfold pabs
  by_cases h : q < 0
  · rw [if_pos h, abs_of_neg h]
  · rw [if_neg h, abs_of_nonneg (le_of_not_lt h)]

/-- Model of `LiveTradingPerformanceAnalyzer._trades_match` (lines 415-436).
The four early-return checks are modelled in source order.  The final price
check divides by `transaction.price`; when that price is `0` the Python
float division raises `ZeroDivisionError`, modelled as `Except.error ()`.
`match_trades` has no `try` around it, so the error propagates. -/
def tradesMatch (intention : BotTradeIntention) (transaction : OANDATransaction) :
    Except Unit Bool :=
  if replaceSlashUnderscore intention.pair ≠ transaction.instrument then
    Except.ok false
  else if intention.signal_type = "BUY" ∧ transaction.units ≤ 0 then
    Except.ok false
  else if intention.signal_type = "SELL" ∧ transaction.units ≥ 0 then
    Except.ok false
  else if pabs (intention.timestamp - transaction.time) > 300 then
    Except.ok false
  else if transaction.price = 0 then
    Except.error ()
  else if pabs (intention.entry_price - transaction.price) / transaction.price > 1 / 1000 then
    Except.ok false
  else
    Except.ok true

/-- The inner `for transaction in self.oanda_transactions` loop of
`match_trades`: scan transactions in order, stop at the first for which
`_trades_match` returns `True` (the `break`), propagating any exception. -/
def findFirstMatch (intention : BotTradeIntention) :
    List OANDATransaction → Except Unit (Option OANDATransaction)
  | [] => Except.ok none
  | t :: ts =>
    match tradesMatch intention t with
    | Except.error e => Except.error e
    | Except.ok true => Except.ok (some t)
    | Except.ok false => findFirstMatch intention ts

/-- Model of `LiveTradingPerformanceAnalyzer.match_trades` (lines 397-413): for each
intention in order, skip it if not executed, otherwise pair it with the
first matching transaction (if any).  Matched transactions are *not*
removed from the candidate list.  An exception from `_trades_match`
propagates out of the whole loop. -/
def matchTrades : List BotTradeIntention → List OANDATransaction →
    Except Unit (List (BotTradeIntention × OANDATransaction))
  | [], _ => Except.ok []
  | i :: is, ts =>
    if i.executed then
      match findFirstMatch i ts with
      | Except.error e => Except.error e
      | Except.ok none => matchTrades is ts
      | Except.ok (some t) =>
        match matchTrades is ts with
        | Except.error e => Except.error e
        | Except.ok rest => Except.ok ((i, t) :: rest)
    else
      matchTrades is ts

/-! Spec-side matching predicate (refinement target for C3) -/

/-- The spec's candidate-match rule, written from the spec's words: the
instruments agree after normalizing separator style (the intention's
slash-style pair rewritten to the transaction's underscore style), the
direction is consistent (BUY requires positive units, SELL negative), the
time difference is at most 300 seconds, and the relative price difference
is at most 0.1%. -/
def CandidateMatch (i : BotTradeIntention) (t : OANDATransaction) : Prop :=
  replaceSlashUnderscore i.pair = t.instrument ∧
  (i.signal_type = "BUY" → 0 < t.units) ∧
  (i.signal_type = "SELL" → t.units < 0) ∧
  |i.timestamp - t.time| ≤ 300 ∧
  |i.entry_price - t.price| / t.price ≤ 1 / 1000

instance (i : BotTradeIntention) (t : OANDATransaction) :
    Decidable (CandidateMatch i t) := by
  unfold CandidateMatch; infer_instance

/-- The spec's assignment policy, written from the spec's words: each
executed intention, in the given order, is paired with the first
transaction of the list satisfying all candidate predicates (or dropped
when there is none). -/
def matchTradesSpec (is : List BotTradeIntention) (ts : List OANDATransaction) :
    List (BotTradeIntention × OANDATransaction) :=
  (is.filter (·.executed)).filterMap
    (fun i => (ts.find? (fun t => decide (CandidateMatch i t))).map (fun t => (i, t)))

/-- Holds (as `true`) exactly on the non-exception outcome. -/
def exceptOk {α : Type} : Except Unit α → Bool
  | Except.ok _ => true
  | Except.error _ => false

/-! Concrete records used by counterexamples and witnesses -/

/-- An executed EUR/USD BUY intention (the shape of the spec's end-to-end
example). -/
def exIntent : BotTradeIntention :=
  { timestamp := 0
    pair := "EUR/USD"
    signal_type := "BUY"
    confidence := 13 / 20
    entry_price := 1
    target_price := 2
    stop_loss := 1 / 2
    expected_units := 5000
    expected_profit := 0
    expected_loss := 0
    risk_reward_ratio := 2
    rejection_reason := none
    executed := true }

/-- A ledger transaction matching `exIntent` on every predicate. -/
def exTx : OANDATransaction :=
  { transaction_id := "100"
    time := 10
    instrument := "EUR_USD"
    units := 5000
    price := 1
    pl := 175
    transaction_type := "ORDER_FILL"
    reason := "MARKET_ORDER"
    account_balance := 10000 }

/-- A malformed transaction: every numeric field defaulted to `0`
(`float(tx.get(..., 0))` on a record with the fields missing), but with the
instrument, units and time fields still matching `exIntent`. -/
def exTxZeroPrice : OANDATransaction :=
  { transaction_id := "101"
    time := 10
    instrument := "EUR_USD"
    units := 5000
    price := 0
    pl := 0
    transaction_type := "ORDER_FILL"
    reason := ""
    account_balance := 0 }

/-- Normalization of the sample pair. -/
theorem rsEUR : replaceSlashUnderscore "EUR/USD" = "EUR_USD" := by decide

theorem buyNeSell : ("BUY" : String) ≠ "SELL" := by decide

/-! Key lemma: `_trades_match` computes the spec predicate away from
price zero -/

/-- On a transaction with nonzero price, `_trades_match` returns normally
and its Boolean outcome is exactly the spec's candidate-match predicate. -/
theorem tradesMatch_eq_decide (i : BotTradeIntention) (t : OANDATransaction)
    (hp : t.price ≠ 0) :
    tradesMatch i t = Except.ok (decide (CandidateMatch i t)) := by
  unfold tradesMatch
  simp only [pabs_eq_abs]
  by_cases h1 : replaceSlashUnderscore i.pair ≠ t.instrument
  · rw [if_pos h1, decide_eq_false (fun hc : CandidateMatch i t => h1 hc.1)]
  · rw [if_neg h1]
    by_cases h2 : i.signal_type = "BUY" ∧ t.units ≤ 0
    · rw [if_pos h2, decide_eq_false (p := CandidateMatch i t)]
      intro hc
      have := hc.2.1 h2.1
      linarith [h2.2]
    · rw [if_neg h2]
      by_cases h3 : i.signal_type = "SELL" ∧ t.units ≥ 0
      · rw [if_pos h3, decide_eq_false (p := CandidateMatch i t)]
        intro hc
        have := hc.2.2.1 h3.1
        linarith [h3.2]
      · rw [if_neg h3]
        by_cases h4 : |i.timestamp - t.time| > 300
        · rw [if_pos h4, decide_eq_false (p := CandidateMatch i t)]
          intro hc
          have := hc.2.2.2.1
          linarith
        · rw [if_neg h4, if_neg hp]
          by_cases h6 : |i.entry_price - t.price| / t.price > 1 / 1000
          · rw [if_pos h6, decide_eq_false (p := CandidateMatch i t)]
            intro hc
            have := hc.2.2.2.2
            linarith
          · rw [if_neg h6, decide_eq_true (p := CandidateMatch i t)]
            refine ⟨not_not.mp (fun h => h1 h), ?_, ?_, le_of_not_lt h4, le_of_not_lt h6⟩
            · intro hb
              by_contra hle
              exact h2 ⟨hb, le_of_not_lt hle⟩
            · intro hs
              by_contra hge
              exact h3 ⟨hs, le_of_not_lt hge⟩

/-- The inner scan returns (without exception) the first transaction
satisfying the candidate predicate, when no transaction has price zero. -/
theorem findFirstMatch_eq_find (i : BotTradeIntention) :
    ∀ ts : List OANDATransaction, (∀ t ∈ ts, t.price ≠ 0) →
      findFirstMatch i ts =
        Except.ok (ts.find? (fun t => decide (CandidateMatch i t)))
  | [], _ => rfl
  | t :: ts, h => by
    have hp : t.price ≠ 0 := h t (List.mem_cons_self t ts)
    have ih := findFirstMatch_eq_find i ts (fun u hu => h u (List.mem_cons_of_mem t hu))
    unfold findFirstMatch
    rw [tradesMatch_eq_decide i t hp]
    by_cases hc : CandidateMatch i t
    · simp [hc, List.find?]
    · simp [hc, List.find?, ih]

/-! Claim C1 -/

/-- Counterexample to C1.  The claim says the reconciler claims each
transaction at most once; but `match_trades` never removes a matched
transaction from the candidate pool, so two executed intentions both match
the single transaction `exTx`, which therefore appears in two matched
pairs (its list of claimed transactions is `[exTx, exTx]`, not
duplicate-free). -/
theorem matchTrades_transaction_claimed_twice :
    matchTrades [exIntent, exIntent] [exTx] =
      Except.ok [(exIntent, exTx), (exIntent, exTx)] ∧
    ¬ ([(exIntent, exTx), (exIntent, exTx)].map Prod.snd).Nodup := by
  constructor
  · norm_num [matchTrades, findFirstMatch, tradesMatch, pabs, exIntent, exTx,
      rsEUR, buyNeSell]
  · intro h
    simp only [List.map] at h
    exact (List.nodup_cons.mp h).1 (List.mem_singleton_self _)

/-- Amended C1.  Each *intention* is claimed at most once: the first
components of the matched pairs form a subsequence of the input intention
list (so one pair per executed intention occurrence), though a transaction
may be shared by several pairs. -/
theorem matchTrades_intentions_sublist :
    ∀ (is : List BotTradeIntention) (ts : List OANDATransaction)
      (l : List (BotTradeIntention × OANDATransaction)),
      matchTrades is ts = Except.ok l → (l.map Prod.fst).Sublist is := by
  intro is
  induction is with
  | nil =>
    intro ts l h
    simp [matchTrades] at h
    simp [← h]
  | cons i is ih =>
    intro ts l h
    cases hex : i.executed with
    | false =>
      simp [matchTrades, hex] at h
      exact List.Sublist.cons i (ih ts l h)
    | true =>
      simp [matchTrades, hex] at h
      cases hf : findFirstMatch i ts with
      | error e => rw [hf] at h; cases h
      | ok o =>
        rw [hf] at h
        cases o with
        | none => exact List.Sublist.cons i (ih ts l h)
        | some t =>
          cases hm : matchTrades is ts with
          | error e => rw [hm] at h; cases h
          | ok rest =>
            rw [hm] at h
            cases h
            simpa using List.Sublist.cons₂ i (ih ts rest hm)

/-- Witness for the amended C1 at a concrete input. -/
theorem matchTrades_intentions_sublist_witness :
    ([(exIntent, exTx)].map Prod.fst).Sublist [exIntent] :=
  matchTrades_intentions_sublist [exIntent] [exTx] [(exIntent, exTx)]
    (by norm_num [matchTrades, findFirstMatch, tradesMatch, pabs, exIntent, exTx,
      rsEUR, buyNeSell])

/-! Claim C2 -/

/-- Counterexample to C2.  The claim says reconciliation never raises on a
malformed record; but a transaction whose price field defaulted to `0`
while instrument, direction and time still match reaches the price check,
where `_trades_match` divides by `transaction.price` and raises
`ZeroDivisionError`, aborting `match_trades`. -/
theorem matchTrades_raises_on_zero_price :
    matchTrades [exIntent] [exTxZeroPrice] = Except.error () := by
  norm_num [matchTrades, findFirstMatch, tradesMatch, pabs, exIntent, exTxZeroPrice,
    rsEUR, buyNeSell]

/-- Amended C2.  Reconciliation completes without raising provided no
transaction carries a zero price; a malformed record then merely fails the
candidate predicates and is never paired. -/
theorem matchTrades_ok_of_price_ne_zero :
    ∀ (is : List BotTradeIntention) (ts : List OANDATransaction),
      (∀ t ∈ ts, t.price ≠ 0) → exceptOk (matchTrades is ts) = true := by
  intro is
  induction is with
  | nil => intro ts h; rfl
  | cons i is ih =>
    intro ts h
    cases hex : i.executed with
    | false => simpa [matchTrades, hex] using ih ts h
    | true =>
      rw [matchTrades]
      rw [if_pos (by simp [hex])]
      rw [findFirstMatch_eq_find i ts h]
      cases hfind : ts.find? (fun t => decide (CandidateMatch i t)) with
      | none => exact ih ts h
      | some t =>
        have := ih ts h
        cases hm : matchTrades is ts with
        | error e => rw [hm] at this; cases this
        | ok rest => rfl

/-- Witness for the amended C2 at a concrete input. -/
theorem matchTrades_ok_of_price_ne_zero_witness :
    exceptOk (matchTrades [exIntent] [exTx]) = true :=
  matchTrades_ok_of_price_ne_zero [exIntent] [exTx] (by norm_num [exTx])

/-! Claim C3 -/

/-- Claim C3.  Away from the zero-price exception path: an intention and a
transaction are a candidate match (`_trades_match` answers `True`) iff the
instruments agree after separator normalization, the direction is
consistent, the time difference is at most 300 seconds and the relative
price difference is at most 0.1%; and `match_trades` pairs each executed
intention with the *first* transaction of the list satisfying all
predicates. -/
theorem tradesMatch_iff_and_first_fit :
    (∀ (i : BotTradeIntention) (t : OANDATransaction), t.price ≠ 0 →
      (tradesMatch i t = Except.ok true ↔ CandidateMatch i t)) ∧
    (∀ (is : List BotTradeIntention) (ts : List OANDATransaction),
      (∀ t ∈ ts, t.price ≠ 0) →
      matchTrades is ts = Except.ok (matchTradesSpec is ts)) := by
  constructor
  · intro i t hp
    rw [tradesMatch_eq_decide i t hp]
    by_cases hc : CandidateMatch i t
    · simp [hc]
    · simp [hc]
  · intro is
    induction is with
    | nil => intro ts h; rfl
    | cons i is ih =>
      intro ts h
      cases hex : i.executed with
      | false => simp [matchTrades, hex, matchTradesSpec, List.filter_cons, ih ts h]
      | true =>
        rw [matchTrades]
        rw [if_pos (by simp [hex])]
        rw [findFirstMatch_eq_find i ts h]
        cases hfind : ts.find? (fun t => decide (CandidateMatch i t)) with
        | none =>
          rw [ih ts h]
          simp [matchTradesSpec, List.filter_cons, hex, hfind]
        | some t =>
          rw [ih ts h]
          simp [matchTradesSpec, List.filter_cons, hex, hfind]

/-- Witness for C3 at a concrete input: `exIntent`/`exTx` satisfy the rule
(the spec's end-to-end example shape), and the single-element run pairs
them. -/
theorem tradesMatch_iff_and_first_fit_witness :
    (tradesMatch exIntent exTx = Except.ok true ↔ CandidateMatch exIntent exTx) ∧
    matchTrades [exIntent] [exTx] = Except.ok (matchTradesSpec [exIntent] [exTx]) :=
  ⟨tradesMatch_iff_and_first_fit.1 exIntent exTx (by norm_num [exTx]),
   tradesMatch_iff_and_first_fit.2 [exIntent] [exTx] (by norm_num [exTx])⟩

/-! Profit factor (claim C4)

Two sites compute it over a selected list of P&L values:
`ComprehensiveTradingAnalyzer.analyze_trading_patterns`
(`comprehensive_trading_analysis.py` lines 128-130) and
`HistoricalPerformanceAnalyzer.analyze_what_worked_vs_failed`
(`historical_performance_analyzer.py` line 463).  `float('inf')` is
modelled as `⊤ : WithTop ℚ`. -/

/-- Source expression `gross_profit = df[df['PL_NUMERIC'] > 0]['PL_NUMERIC'].sum()`. -/
def gross_profit (pls : List ℚ) : ℚ := (pls.filter (fun p => decide (0 < p))).sum

/-- Source expression `gross_loss = abs(df[df['PL_NUMERIC'] < 0]['PL_NUMERIC'].sum())`. -/
def gross_loss (pls : List ℚ) : ℚ := pabs (pls.filter (fun p => decide (p < 0))).sum

/-- Source expression `profit_factor = gross_profit / gross_loss if gross_loss > 0 else float('inf')`
(comprehensive_trading_analysis.py line 130). -/
def profit_factor_patterns (pls : List ℚ) : WithTop ℚ :=
  if 0 < gross_loss pls then ((gross_profit pls / gross_loss pls : ℚ) : WithTop ℚ) else ⊤

/-- Source expression `profit_factor = abs(sum(winners) / sum(losers)) if losers and
sum(losers) != 0 else float('inf')` (historical_performance_analyzer.py
line 463), where `winners`/`losers` are the strictly positive/negative
entries. -/
def profit_factor_whatWorked (pls : List ℚ) : WithTop ℚ :=
  let winners := pls.filter (fun p => decide (0 < p))
  let losers := pls.filter (fun p => decide (p < 0))
  if losers ≠ [] ∧ losers.sum ≠ 0 then
    ((pabs (winners.sum / losers.sum) : ℚ) : WithTop ℚ)
  else ⊤

/-- Counterexample to C4.  The claim says profit_factor is `0` when the
selected set is empty; both computations instead yield `float('inf')` on
the empty set (in the historical analyzer the empty-losers guard falls to
the `else float('inf')` branch), and `+∞ ≠ 0`. -/
theorem profit_factor_empty_is_inf :
    profit_factor_whatWorked [] = ⊤ ∧
    profit_factor_patterns [] = ⊤ ∧
    (⊤ : WithTop ℚ) ≠ ((0 : ℚ) : WithTop ℚ) := by
  refine ⟨by norm_num [profit_factor_whatWorked], ?_, ?_⟩
  · norm_num [profit_factor_patterns, gross_loss, pabs, List.filter]
  · simp

/-- Elements of the strictly-negative filter sum to a negative number when
the filter is nonempty. -/
theorem sum_neg_of_all_neg : ∀ l : List ℚ, (∀ x ∈ l, x < 0) → l ≠ [] → l.sum < 0
  | [], _, h => absurd rfl h
  | a :: l, hall, _ => by
    have ha : a < 0 := hall a (List.mem_cons_self a l)
    cases l with
    | nil => simpa using ha
    | cons b l =>
      have hs := sum_neg_of_all_neg (b :: l)
        (fun x hx => hall x (List.mem_cons_of_mem a hx)) (by simp)
      simp only [List.sum_cons] at hs ⊢
      linarith

theorem sum_nonneg_of_all_nonneg : ∀ l : List ℚ, (∀ x ∈ l, 0 ≤ x) → 0 ≤ l.sum
  | [], _ => by simp
  | a :: l, hall => by
    have ha := hall a (List.mem_cons_self a l)
    have hs := sum_nonneg_of_all_nonneg l (fun x hx => hall x (List.mem_cons_of_mem a hx))
    simp only [List.sum_cons]
    linarith

theorem losers_sum_neg (pls : List ℚ)
    (h : pls.filter (fun p => decide (p < 0)) ≠ []) :
    (pls.filter (fun p => decide (p < 0))).sum < 0 := by
  refine sum_neg_of_all_neg _ ?_ h
  intro x hx
  have := List.of_mem_filter hx
  simpa using this

/-- Elements of the strictly-positive filter sum to a nonnegative number. -/
theorem winners_sum_nonneg (pls : List ℚ) :
    0 ≤ (pls.filter (fun p => decide (0 < p))).sum := by
  refine sum_nonneg_of_all_nonneg _ ?_
  intro x hx
  have := List.of_mem_filter hx
  simp at this
  linarith

/-- Amended C4.  Over every selected P&L list, the two computations
agree; when negative P&L is present, the profit factor is the sum of the
positive P&L divided by the absolute sum of the negative P&L; when no
negative P&L is present — including the empty set, which yields `+∞`
rather than the claimed `0` — it is `float('inf')`. -/
theorem profit_factor_correct (pls : List ℚ) :
    profit_factor_whatWorked pls = profit_factor_patterns pls ∧
    (pls.filter (fun p => decide (p < 0)) ≠ [] →
      profit_factor_patterns pls =
        ((gross_profit pls / gross_loss pls : ℚ) : WithTop ℚ)) ∧
    (pls.filter (fun p => decide (p < 0)) = [] →
      profit_factor_patterns pls = ⊤) := by
  refine ⟨?_, ?_, ?_⟩
  · by_cases h : pls.filter (fun p => decide (p < 0)) = []
    · have hz : gross_loss pls = 0 := by
        unfold gross_loss
        rw [h]
        norm_num [pabs]
      unfold profit_factor_whatWorked profit_factor_patterns
      rw [hz]
      simp [h]
    · have hneg := losers_sum_neg pls h
      have hz : gross_loss pls = -(pls.filter (fun p => decide (p < 0))).sum := by
        unfold gross_loss pabs
        rw [if_pos hneg]
      unfold profit_factor_whatWorked profit_factor_patterns
      rw [hz]
      rw [if_pos (⟨h, ne_of_lt hneg⟩ :
            pls.filter (fun p => decide (p < 0)) ≠ [] ∧
            (pls.filter (fun p => decide (p < 0))).sum ≠ 0),
          if_pos (by linarith)]
      congr 1
      have hw := winners_sum_nonneg pls
      unfold gross_profit
      rcases eq_or_lt_of_le hw with hw0 | hwpos
      · rw [← hw0]
        norm_num [pabs]
      · have hdn : (pls.filter (fun p => decide (0 < p))).sum /
            (pls.filter (fun p => decide (p < 0))).sum < 0 :=
          div_neg_of_pos_of_neg hwpos hneg
        unfold pabs
        rw [if_pos hdn, div_neg]
  · intro h
    have hneg := losers_sum_neg pls h
    have hpos : 0 < gross_loss pls := by
      unfold gross_loss pabs
      rw [if_pos hneg]
      linarith
    unfold profit_factor_patterns
    rw [if_pos hpos]
  · intro h
    have hz : gross_loss pls = 0 := by
      unfold gross_loss
      rw [h]
      norm_num [pabs]
    unfold profit_factor_patterns
    rw [hz]
    norm_num

/-- Witness for the amended C4 at the spec's own test vector
`wins = 100, losses = −50`: negative P&L is present and the factor is the
stated quotient (which is `2`). -/
theorem profit_factor_correct_witness :
    profit_factor_patterns [100, -50] =
      ((gross_profit [100, -50] / gross_loss [100, -50] : ℚ) : WithTop ℚ) ∧
    profit_factor_patterns [100, -50] = ((2 : ℚ) : WithTop ℚ) := by
  constructor
  · exact (profit_factor_correct [100, -50]).2.1 (by norm_num [List.filter])
  · rw [(profit_factor_correct [100, -50]).2.1 (by norm_num [List.filter])]
    norm_num [gross_profit, gross_loss, pabs, List.filter]

/-! Confidence-vs-win correlation (claim C7)

`ConfidenceWinRateAnalyzer.analyze_confidence_vs_winrate`
(`confidence_vs_winrate_analysis.py` lines 166-170) computes
`df['SIMULATED_CONFIDENCE'].corr((df['PL_NUMERIC'] > 0).astype(int))`:
the pandas Pearson correlation `r = Sxy / √(Sxx·Syy)` of the confidence
series against the 0/1 win indicator.  pandas returns `NaN` when either
centered square sum is zero (a constant series, or fewer than two
samples).  Since `√` leaves `ℚ`, the finite outcome is represented by its
defining triple `(Sxy, Sxx, Syy)` — in particular `r = 0` iff `Sxy = 0`. -/

/-- Outcome of `Series.corr`: `NaN`, or the finite value determined by
`(Sxy, Sxx, Syy)`. -/
inductive CorrOutcome where
  | nan : CorrOutcome
  | finite (sxy sxx syy : ℚ) : CorrOutcome
  deriving DecidableEq, Repr

/-- Whether `r = 0` in the finite case (`r` has the sign of `Sxy`); `NaN` is not
the number `0`. -/
def corrValueIsZero : CorrOutcome → Prop
  | CorrOutcome.nan => False
  | CorrOutcome.finite sxy _ _ => sxy = 0

def listMean (l : List ℚ) : ℚ := l.sum / l.length

/-- Centered sum of squares `Σ (x − mean)²` of one series. -/
def sqDevSum (l : List ℚ) : ℚ := (l.map (fun x => (x - listMean l) ^ 2)).sum

/-- Centered cross sum `Σ (x − mean x)(y − mean y)`. -/
def crossDevSum (xs ys : List ℚ) : ℚ :=
  ((xs.zip ys).map (fun p => (p.1 - listMean xs) * (p.2 - listMean ys))).sum

/-- Model of `Series.corr` on two aligned series. -/
def seriesCorr (xs ys : List ℚ) : CorrOutcome :=
  if sqDevSum xs = 0 ∨ sqDevSum ys = 0 then CorrOutcome.nan
  else CorrOutcome.finite (crossDevSum xs ys) (sqDevSum xs) (sqDevSum ys)

/-- Model of `(pl > 0).astype(int)`. -/
def winIndicator (pl : ℚ) : ℚ := if 0 < pl then 1 else 0

/-- Lines 166-170: the reported correlation over the rows
`(confidence, pl)` of the dataframe. -/
def correlationReport (rows : List (ℚ × ℚ)) : CorrOutcome :=
  seriesCorr (rows.map Prod.fst) (rows.map (fun r => winIndicator r.2))

/-- Counterexample to C7.  Two records share the single confidence value
`3/5` (fewer than 2 distinct values), one win and one loss: the code
computes the pandas correlation of a zero-variance series, which is `NaN`
— not the number `0` — and `analyze_confidence_vs_winrate` attaches no
"insufficient data" flag to its result (its result keys are only
`bin_analysis`, `correlation`, `overall_stats`). -/
theorem correlation_constant_confidence_is_nan :
    correlationReport [((3 : ℚ) / 5, 5), (3 / 5, -3)] = CorrOutcome.nan ∧
    ¬ corrValueIsZero (correlationReport [((3 : ℚ) / 5, 5), (3 / 5, -3)]) := by
  have h : correlationReport [((3 : ℚ) / 5, 5), (3 / 5, -3)] = CorrOutcome.nan := by
    norm_num [correlationReport, seriesCorr, sqDevSum, listMean]
  exact ⟨h, by rw [h]; exact not_false⟩

/-- A series with fewer than two distinct values has zero centered sum of
squares. -/
theorem sqDevSum_eq_zero_of_const (xs : List ℚ)
    (h : ∀ x ∈ xs, ∀ y ∈ xs, x = y) : sqDevSum xs = 0 := by
  cases xs with
  | nil => norm_num [sqDevSum, listMean]
  | cons a l =>
    have hc : ∀ x ∈ a :: l, x = a :=
      fun x hx => h x hx a (List.mem_cons_self a l)
    have hsum : (a :: l).sum = (a :: l).length • a := List.sum_eq_card_nsmul _ a hc
    have hlen : ((a :: l).length : ℚ) ≠ 0 := by
      rw [List.length_cons]
      push_cast
      positivity
    have hmean : listMean (a :: l) = a := by
      unfold listMean
      rw [hsum]
      rw [nsmul_eq_mul]
      exact mul_div_cancel_left₀ a hlen
    unfold sqDevSum
    refine List.sum_eq_zero ?_
    intro x hx
    rcases List.mem_map.mp hx with ⟨y, hy, rfl⟩
    rw [hmean, hc y hy]
    ring

/-- Amended C7.  Whenever fewer than 2 distinct confidence values
exist among the records (every two confidence values coincide), the
reported correlation is `NaN` — pandas' correlation of a zero-variance
series — not `0`, and no insufficient-data flag is produced. -/
theorem correlation_nan_of_constant_confidence (rows : List (ℚ × ℚ))
    (h : ∀ x ∈ rows.map Prod.fst, ∀ y ∈ rows.map Prod.fst, x = y) :
    correlationReport rows = CorrOutcome.nan := by
  unfold correlationReport seriesCorr
  rw [if_pos (Or.inl (sqDevSum_eq_zero_of_const _ h))]

/-- Witness for the amended C7 at the concrete two-record input. -/
theorem correlation_nan_of_constant_confidence_witness :
    correlationReport [((3 : ℚ) / 5, 5), (3 / 5, -3)] = CorrOutcome.nan :=
  correlation_nan_of_constant_confidence [((3 : ℚ) / 5, 5), (3 / 5, -3)]
    (by intro x hx y hy; simp at hx hy; rw [hx, hy])

/-! Transaction normalizer (claims C8, C10)

`HistoricalPerformanceAnalyzer.fetch_extended_trade_history`
(`historical_performance_analyzer.py` lines 95-183) folds the raw
transaction batch into a dict keyed by trade id, and
`_fetch_current_open_trades` (lines 185-226) appends the currently open
positions.  String-typed numeric/time fields of a raw entry are modelled
by their parse outcome: `none` encodes a value on which `float(...)` or
`datetime.fromisoformat(...)` raises (a missing `time` key is also `none`,
since `fromisoformat('')` raises); a missing numeric key is `some 0`
(`float(tx.get(..., 0))`).  Within `fetch_extended_trade_history` any such
exception is caught by the function-level `try` and the result is `[]`;
within `_fetch_current_open_trades` the loop stops but the trades already
appended are kept. -/

/-- One raw ledger entry of the `transactions` response. -/
structure RawTx where
  type : String
  id : String
  time : Option ℚ
  instrument : String
  units : Option ℚ
  price : Option ℚ
  pl : Option ℚ
  tradeOpenedID : String
  tradesClosed : Option (List String)
  deriving DecidableEq, Repr

/-- The `HistoricalTrade` dataclass (lines 28-41). -/
structure HistoricalTrade where
  trade_id : String
  open_time : ℚ
  close_time : Option ℚ
  instrument : String
  units : ℚ
  open_price : ℚ
  close_price : Option ℚ
  pl : ℚ
  duration_hours : Option ℚ
  trade_type : String
  status : String
  deriving DecidableEq, Repr

/-- Line 154: `trade_id = tx.get('tradeOpened', {}).get('tradeID', '') or
tx.get('tradesClosed', [{}])[0].get('tradeID', '')`.  The `or` short
circuits; when the `tradesClosed` key is present with an empty list the
`[0]` raises `IndexError` (`Except.error`); when absent, the default
`[{}]` yields `''`. -/
def fillTradeID (tx : RawTx) : Except Unit String :=
  if tx.tradeOpenedID ≠ "" then Except.ok tx.tradeOpenedID
  else
    match tx.tradesClosed with
    | none => Except.ok ""
    | some [] => Except.error ()
    | some (tid :: _) => Except.ok tid

/-- Line 160: truthiness of `tx.get('tradesClosed')`. -/
def closedFlag (tx : RawTx) : Bool :=
  match tx.tradesClosed with
  | some (_ :: _) => true
  | _ => false

/-- The `trades` dict as an association list in insertion order;
`trades[k] = v` keeps the original position on overwrite. -/
def upsertTrade (k : String) (v : HistoricalTrade) :
    List (String × HistoricalTrade) → List (String × HistoricalTrade)
  | [] => [(k, v)]
  | (k2, v2) :: rest =>
    if k2 = k then (k, v) :: rest else (k2, v2) :: upsertTrade k v rest

/-- In-place mutation of the dict entry at key `k`. -/
def updateTrade (k : String) (f : HistoricalTrade → HistoricalTrade) :
    List (String × HistoricalTrade) → List (String × HistoricalTrade)
  | [] => []
  | (k2, v2) :: rest =>
    if k2 = k then (k2, f v2) :: rest else (k2, v2) :: updateTrade k f rest

def containsKey (k : String) : List (String × HistoricalTrade) → Bool
  | [] => false
  | (k2, _) :: rest => k2 = k || containsKey k rest

/-- One iteration of the `for tx in transactions` loop (lines 128-168).
`MARKET_ORDER` inserts a fresh OPEN trade; `ORDER_FILL` accumulates P&L
into an existing trade and, when the fill closes trades, stamps close
time/price, status and duration (the guard `if open_time and close_time`
is vacuous, both datetimes being truthy); a fill whose trade id is not in
the dict changes nothing; other entry types are skipped. -/
def processTx (trades : List (String × HistoricalTrade)) (tx : RawTx) :
    Except Unit (List (String × HistoricalTrade)) :=
  if tx.type = "MARKET_ORDER" then
    match tx.units, tx.time, tx.price with
    | some u, some t0, some p =>
      Except.ok (upsertTrade tx.id
        { trade_id := tx.id
          open_time := t0
          close_time := none
          instrument := tx.instrument
          units := u
          open_price := p
          close_price := none
          pl := 0
          duration_hours := none
          trade_type := if u > 0 then "BUY" else "SELL"
          status := "OPEN" } trades)
    | _, _, _ => Except.error ()
  else if tx.type = "ORDER_FILL" then
    match fillTradeID tx with
    | Except.error e => Except.error e
    | Except.ok tid =>
      if containsKey tid trades then
        match tx.pl with
        | none => Except.error ()
        | some plv =>
          if closedFlag tx then
            match tx.time, tx.price with
            | some ct, some cp =>
              Except.ok (updateTrade tid (fun tr =>
                { tr with
                  pl := tr.pl + plv
                  close_time := some ct
                  close_price := some cp
                  status := "CLOSED"
                  duration_hours := some ((ct - tr.open_time) / 3600) }) trades)
            | _, _ => Except.error ()
          else
            Except.ok (updateTrade tid (fun tr => { tr with pl := tr.pl + plv }) trades)
      else
        Except.ok trades
  else
    Except.ok trades

def processAll : List RawTx → List (String × HistoricalTrade) →
    Except Unit (List (String × HistoricalTrade))
  | [], acc => Except.ok acc
  | tx :: rest, acc =>
    match processTx acc tx with
    | Except.error e => Except.error e
    | Except.ok acc2 => processAll rest acc2

/-- Model of `fetch_extended_trade_history` on an already-fetched batch: fold the
batch into the dict and return `list(trades.values())`; any exception is
caught at function level and yields `[]`. -/
def fetchExtendedTrades (txs : List RawTx) : List HistoricalTrade :=
  match processAll txs [] with
  | Except.ok l => l.map Prod.snd
  | Except.error _ => []

/-- One raw entry of the `openTrades` response. -/
structure RawOpenTrade where
  id : String
  openTime : Option ℚ
  instrument : String
  currentUnits : Option ℚ
  price : Option ℚ
  unrealizedPL : Option ℚ
  deriving DecidableEq, Repr

/-- Lines 203-221: build one OPEN `HistoricalTrade` from a raw open
position; `duration_hours` is computed against `now` (the guard
`if hist_trade.open_time` is vacuously true for a datetime). -/
def mkOpenTrade (r : RawOpenTrade) (now : ℚ) : Option HistoricalTrade :=
  match r.openTime, r.currentUnits, r.price, r.unrealizedPL with
  | some ot, some u, some p, some upl =>
    some
      { trade_id := r.id
        open_time := ot
        close_time := none
        instrument := r.instrument
        units := u
        open_price := p
        close_price := none
        pl := upl
        duration_hours := some ((now - ot) / 3600)
        trade_type := if u > 0 then "BUY" else "SELL"
        status := "OPEN" }
  | _, _, _, _ => none

/-- Model of `_fetch_current_open_trades`: the appended trades; an exception stops
the loop but keeps the trades appended so far. -/
def fetchOpenTrades : List RawOpenTrade → ℚ → List HistoricalTrade
  | [], _ => []
  | r :: rest, now =>
    match mkOpenTrade r now with
    | none => []
    | some t => t :: fetchOpenTrades rest now

theorem mem_upsertTrade (k : String) (v : HistoricalTrade) :
    ∀ (l : List (String × HistoricalTrade)) (p : String × HistoricalTrade),
      p ∈ upsertTrade k v l → p = (k, v) ∨ p ∈ l
  | [], p, h => by
    simp [upsertTrade] at h
    exact Or.inl h
  | (k2, v2) :: rest, p, h => by
    unfold upsertTrade at h
    by_cases hk : k2 = k
    · rw [if_pos hk] at h
      rcases List.mem_cons.mp h with h1 | h1
      · exact Or.inl h1
      · exact Or.inr (List.mem_cons_of_mem _ h1)
    · rw [if_neg hk] at h
      rcases List.mem_cons.mp h with h1 | h1
      · exact Or.inr (by rw [h1]; exact List.mem_cons_self _ _)
      · rcases mem_upsertTrade k v rest p h1 with h2 | h2
        · exact Or.inl h2
        · exact Or.inr (List.mem_cons_of_mem _ h2)

theorem mem_updateTrade (k : String) (f : HistoricalTrade → HistoricalTrade) :
    ∀ (l : List (String × HistoricalTrade)) (p : String × HistoricalTrade),
      p ∈ updateTrade k f l → p ∈ l ∨ ∃ q ∈ l, p = (q.1, f q.2)
  | [], p, h => by simp [updateTrade] at h
  | (k2, v2) :: rest, p, h => by
    unfold updateTrade at h
    by_cases hk : k2 = k
    · rw [if_pos hk] at h
      rcases List.mem_cons.mp h with h1 | h1
      · exact Or.inr ⟨(k2, v2), List.mem_cons_self _ _, h1⟩
      · exact Or.inl (List.mem_cons_of_mem _ h1)
    · rw [if_neg hk] at h
      rcases List.mem_cons.mp h with h1 | h1
      · exact Or.inl (by rw [h1]; exact List.mem_cons_self _ _)
      · rcases mem_updateTrade k f rest p h1 with h2 | ⟨q, hq, h2⟩
        · exact Or.inl (List.mem_cons_of_mem _ h2)
        · exact Or.inr ⟨q, List.mem_cons_of_mem _ hq, h2⟩

/-- The C8 invariant on a normalized trade: the duration field is exactly
the close-minus-open difference in hours when a close time is present, and
absent (`None`) otherwise — never a defaulted `0`. -/
def DurationInv (t : HistoricalTrade) : Prop :=
  t.duration_hours = t.close_time.map (fun c => (c - t.open_time) / 3600)

theorem processTx_duration (acc : List (String × HistoricalTrade)) (tx : RawTx)
    (acc2 : List (String × HistoricalTrade))
    (h : processTx acc tx = Except.ok acc2)
    (hP : ∀ p ∈ acc, DurationInv p.2) :
    ∀ p ∈ acc2, DurationInv p.2 := by
  unfold processTx at h
  by_cases hMO : tx.type = "MARKET_ORDER"
  · rw [if_pos hMO] at h
    split at h
    case _ u t0 p0 =>
      cases h
      intro p hp
      rcases mem_upsertTrade _ _ _ _ hp with rfl | hmem
      · simp [DurationInv]
      · exact hP p hmem
    all_goals cases h
  · rw [if_neg hMO] at h
    by_cases hOF : tx.type = "ORDER_FILL"
    · rw [if_pos hOF] at h
      split at h
      case _ x e heq => cases h
      case _ x tid heq =>
        by_cases hKey : containsKey tid acc = true
        · rw [if_pos hKey] at h
          split at h
          case _ x2 heq2 => cases h
          case _ x2 plv heq2 =>
            by_cases hClosed : closedFlag tx = true
            · rw [if_pos hClosed] at h
              split at h
              case _ ct cp =>
                cases h
                intro p hp
                rcases mem_updateTrade _ _ _ _ hp with hmem | ⟨q, hq, rfl⟩
                · exact hP p hmem
                · simp [DurationInv]
              all_goals cases h
            · rw [if_neg hClosed] at h
              cases h
              intro p hp
              rcases mem_updateTrade _ _ _ _ hp with hmem | ⟨q, hq, rfl⟩
              · exact hP p hmem
              · have := hP q hq
                simpa [DurationInv] using this
        · rw [if_neg hKey] at h
          cases h
          exact hP
    · rw [if_neg hOF] at h
      cases h
      exact hP

theorem processAll_duration :
    ∀ (txs : List RawTx) (acc l : List (String × HistoricalTrade)),
      processAll txs acc = Except.ok l →
      (∀ p ∈ acc, DurationInv p.2) → ∀ p ∈ l, DurationInv p.2
  | [], acc, l, h, hP => by
    simp [processAll] at h
    rw [← h]
    exact hP
  | tx :: rest, acc, l, h, hP => by
    unfold processAll at h
    cases hstep : processTx acc tx with
    | error e => rw [hstep] at h; cases h
    | ok acc2 =>
      rw [hstep] at h
      exact processAll_duration rest acc2 l h (processTx_duration acc tx acc2 hstep hP)

/-- Claim C8.  Every trade the normalizer outputs satisfies: for the
historical pass, `duration_hours` is populated exactly when the close
timestamp is (and then equals close − open in hours); for the open-trades
pass, `duration_hours` is populated against `now` and the close timestamp
is absent.  A trade with an unresolvable timestamp is never emitted with a
zero-defaulted duration (the exception path drops it instead). -/
theorem duration_iff_close_or_now :
    (∀ (txs : List RawTx) (t : HistoricalTrade), t ∈ fetchExtendedTrades txs →
      t.duration_hours = t.close_time.map (fun c => (c - t.open_time) / 3600)) ∧
    (∀ (l : List RawOpenTrade) (now : ℚ) (t : HistoricalTrade),
      t ∈ fetchOpenTrades l now →
      t.duration_hours = some ((now - t.open_time) / 3600) ∧
      t.close_time = none) := by
  constructor
  · intro txs t ht
    unfold fetchExtendedTrades at ht
    cases hall : processAll txs [] with
    | error e => rw [hall] at ht; simp at ht
    | ok l =>
      rw [hall] at ht
      simp only [List.mem_map] at ht
      rcases ht with ⟨p, hp, rfl⟩
      exact processAll_duration txs [] l hall (by simp) p hp
  · intro l
    induction l with
    | nil => intro now t ht; simp [fetchOpenTrades] at ht
    | cons r rest ih =>
      intro now t ht
      unfold fetchOpenTrades at ht
      cases hmk : mkOpenTrade r now with
      | none => rw [hmk] at ht; simp at ht
      | some t0 =>
        rw [hmk] at ht
        rcases List.mem_cons.mp ht with rfl | hmem
        · unfold mkOpenTrade at hmk
          split at hmk
          case _ ot u p upl =>
            cases hmk
            simp
          case _ => cases hmk
        · exact ih now t hmem

theorem processTx_id_pred (C : String → Prop)
    (acc : List (String × HistoricalTrade)) (tx : RawTx)
    (acc2 : List (String × HistoricalTrade))
    (h : processTx acc tx = Except.ok acc2)
    (hMO : tx.type = "MARKET_ORDER" → C tx.id)
    (hP : ∀ p ∈ acc, C p.2.trade_id) :
    ∀ p ∈ acc2, C p.2.trade_id := by
  unfold processTx at h
  by_cases hMOc : tx.type = "MARKET_ORDER"
  · rw [if_pos hMOc] at h
    split at h
    case _ u t0 p0 =>
      cases h
      intro p hp
      rcases mem_upsertTrade _ _ _ _ hp with rfl | hmem
      · simpa using hMO hMOc
      · exact hP p hmem
    all_goals cases h
  · rw [if_neg hMOc] at h
    by_cases hOF : tx.type = "ORDER_FILL"
    · rw [if_pos hOF] at h
      split at h
      case _ x e heq => cases h
      case _ x tid heq =>
        by_cases hKey : containsKey tid acc = true
        · rw [if_pos hKey] at h
          split at h
          case _ x2 heq2 => cases h
          case _ x2 plv heq2 =>
            by_cases hClosed : closedFlag tx = true
            · rw [if_pos hClosed] at h
              split at h
              case _ ct cp =>
                cases h
                intro p hp
                rcases mem_updateTrade _ _ _ _ hp with hmem | ⟨q, hq, rfl⟩
                · exact hP p hmem
                · simpa using hP q hq
              all_goals cases h
            · rw [if_neg hClosed] at h
              cases h
              intro p hp
              rcases mem_updateTrade _ _ _ _ hp with hmem | ⟨q, hq, rfl⟩
              · exact hP p hmem
              · simpa using hP q hq
        · rw [if_neg hKey] at h
          cases h
          exact hP
    · rw [if_neg hOF] at h
      cases h
      exact hP

theorem processAll_id_pred (C : String → Prop) :
    ∀ (txs : List RawTx) (acc l : List (String × HistoricalTrade)),
      processAll txs acc = Except.ok l →
      (∀ tx ∈ txs, tx.type = "MARKET_ORDER" → C tx.id) →
      (∀ p ∈ acc, C p.2.trade_id) → ∀ p ∈ l, C p.2.trade_id
  | [], acc, l, h, _, hP => by
    simp [processAll] at h
    rw [← h]
    exact hP
  | tx :: rest, acc, l, h, hMO, hP => by
    unfold processAll at h
    cases hstep : processTx acc tx with
    | error e => rw [hstep] at h; cases h
    | ok acc2 =>
      rw [hstep] at h
      exact processAll_id_pred C rest acc2 l h
        (fun u hu => hMO u (List.mem_cons_of_mem tx hu))
        (processTx_id_pred C acc tx acc2 hstep
          (hMO tx (List.mem_cons_self tx rest)) hP)

/-- Claim C10.  Every trade in the historical output originates from a
`MARKET_ORDER` entry of the batch carrying its trade id; and an
`ORDER_FILL` whose resolved trade id is not in the dict leaves the dict
unchanged — its P&L is silently discarded. -/
theorem trades_originate_from_market_orders :
    (∀ (txs : List RawTx) (t : HistoricalTrade), t ∈ fetchExtendedTrades txs →
      ∃ tx ∈ txs, tx.type = "MARKET_ORDER" ∧ tx.id = t.trade_id) ∧
    (∀ (trades : List (String × HistoricalTrade)) (tx : RawTx) (tid : String),
      tx.type = "ORDER_FILL" → fillTradeID tx = Except.ok tid →
      containsKey tid trades = false → processTx trades tx = Except.ok trades) := by
  constructor
  · intro txs t ht
    unfold fetchExtendedTrades at ht
    cases hall : processAll txs [] with
    | error e => rw [hall] at ht; simp at ht
    | ok l =>
      rw [hall] at ht
      simp only [List.mem_map] at ht
      rcases ht with ⟨p, hp, rfl⟩
      exact processAll_id_pred
        (fun tid => ∃ tx ∈ txs, tx.type = "MARKET_ORDER" ∧ tx.id = tid)
        txs [] l hall (fun u hu hty => ⟨u, hu, hty, rfl⟩) (by simp) p hp
  · intro trades tx tid hOF hfill hkey
    simp [processTx, hOF, hfill, hkey,
      (show ("ORDER_FILL" : String) ≠ "MARKET_ORDER" from by decide)]

/-! Concrete normalizer run for the C8/C10 witnesses -/

/-- A `MARKET_ORDER` entry opening trade `"7"`. -/
def txMO : RawTx :=
  { type := "MARKET_ORDER"
    id := "7"
    time := some 0
    instrument := "EUR_USD"
    units := some 100
    price := some 1
    pl := some 0
    tradeOpenedID := ""
    tradesClosed := none }

/-- An `ORDER_FILL` entry closing trade `"7"` one hour later with +25 P&L. -/
def txFill : RawTx :=
  { type := "ORDER_FILL"
    id := "8"
    time := some 3600
    instrument := ""
    units := some 0
    price := some (11 / 10)
    pl := some 25
    tradeOpenedID := ""
    tradesClosed := some ["7"] }

/-- The normalized closed trade the batch `[txMO, txFill]` produces. -/
def exTradeClosed : HistoricalTrade :=
  { trade_id := "7"
    open_time := 0
    close_time := some 3600
    instrument := "EUR_USD"
    units := 100
    open_price := 1
    close_price := some (11 / 10)
    pl := 25
    duration_hours := some 1
    trade_type := "BUY"
    status := "CLOSED" }

theorem fetchExtended_eval : fetchExtendedTrades [txMO, txFill] = [exTradeClosed] := by
  norm_num [fetchExtendedTrades, processAll, processTx, fillTradeID, closedFlag,
    upsertTrade, updateTrade, containsKey, txMO, txFill, exTradeClosed,
    (show ("ORDER_FILL" : String) ≠ "MARKET_ORDER" from by decide)]

/-- A raw currently-open position. -/
def rawOpenEx : RawOpenTrade :=
  { id := "9"
    openTime := some 0
    instrument := "USD_JPY"
    currentUnits := some (-200)
    price := some 150
    unrealizedPL := some (-5) }

/-- The normalized open trade `rawOpenEx` produces at `now = 7200`. -/
def exTradeOpen : HistoricalTrade :=
  { trade_id := "9"
    open_time := 0
    close_time := none
    instrument := "USD_JPY"
    units := -200
    open_price := 150
    close_price := none
    pl := -5
    duration_hours := some 2
    trade_type := "SELL"
    status := "OPEN" }

theorem fetchOpen_eval : fetchOpenTrades [rawOpenEx] 7200 = [exTradeOpen] := by
  norm_num [fetchOpenTrades, mkOpenTrade, rawOpenEx, exTradeOpen]

/-- Witness for C8 at a concrete batch and a concrete open position. -/
theorem duration_iff_close_or_now_witness :
    exTradeClosed.duration_hours =
      exTradeClosed.close_time.map (fun c => (c - exTradeClosed.open_time) / 3600) ∧
    (exTradeOpen.duration_hours = some ((7200 - exTradeOpen.open_time) / 3600) ∧
     exTradeOpen.close_time = none) :=
  ⟨duration_iff_close_or_now.1 [txMO, txFill] exTradeClosed
     (by rw [fetchExtended_eval]; exact List.mem_singleton_self _),
   duration_iff_close_or_now.2 [rawOpenEx] 7200 exTradeOpen
     (by rw [fetchOpen_eval]; exact List.mem_singleton_self _)⟩

/-- Witness for C10: the closed trade of the concrete batch originates from
its `MARKET_ORDER`, and the orphan fill `txFill` on an empty dict changes
nothing (its 25 of P&L is dropped). -/
theorem trades_originate_from_market_orders_witness :
    (∃ tx ∈ [txMO, txFill], tx.type = "MARKET_ORDER" ∧ tx.id = exTradeClosed.trade_id) ∧
    processTx [] txFill = Except.ok [] :=
  ⟨trades_originate_from_market_orders.1 [txMO, txFill] exTradeClosed
     (by rw [fetchExtended_eval]; exact List.mem_singleton_self _),
   trades_originate_from_market_orders.2 [] txFill "7" rfl (by rfl) rfl⟩

/-! Scanner primitives shared by the log parsers (claims C5, C6, C9).
Each `re.search` of the source is an explicit left-to-right scan; the
character classes are the ASCII fragments of `\\d` and `\\w`. -/

def isDigitCh (c : Char) : Bool := decide ('0' ≤ c) && decide (c ≤ '9')

/-- Class `[\\d.]` of the price/ratio captures. -/
def isNumCh (c : Char) : Bool := isDigitCh c || c = '.'

/-- Class `[\\d,]` of the position-size capture. -/
def isIntCommaCh (c : Char) : Bool := isDigitCh c || c = ','

/-- ASCII fragment of `\\w`. -/
def isWordCh (c : Char) : Bool :=
  isDigitCh c || (decide ('a' ≤ c) && decide (c ≤ 'z')) ||
    (decide ('A' ≤ c) && decide (c ≤ 'Z')) || c = '_'

def startsWithCl : List Char → List Char → Bool
  | [], _ => true
  | _ :: _, [] => false
  | p :: ps, c :: cs => p = c && startsWithCl ps cs

/-- Python `pat in s` on character lists. -/
def containsCl (pat : List Char) : List Char → Bool
  | [] => startsWithCl pat []
  | c :: cs => startsWithCl pat (c :: cs) || containsCl pat cs

def digitsValAux (acc : Nat) : List Char → Nat
  | [] => acc
  | c :: cs => digitsValAux (10 * acc + (c.toNat - 48)) cs

def digitsVal (l : List Char) : Nat := digitsValAux 0 l

/-- Search for `lit` followed by one or more `cls` characters, leftmost
start position first, capturing the maximal run (the classes of the source
are disjoint from what follows them, so maximal munch agrees with the
regex engine). -/
def findCapture (lit : List Char) (cls : Char → Bool) : List Char → Option (List Char)
  | [] => none
  | c :: cs =>
    if startsWithCl lit (c :: cs) then
      let cap := ((c :: cs).drop lit.length).takeWhile cls
      if cap.isEmpty then findCapture lit cls cs else some cap
    else findCapture lit cls cs

/-- Python `float(s)` on a capture of `[\\d.]+`: defined iff the capture has
at most one dot and at least one digit; `none` models the `ValueError`. -/
def pyFloat (l : List Char) : Option ℚ :=
  if (l.filter (fun c => c = '.')).length ≤ 1 ∧ l.any isDigitCh then
    let intPart := l.takeWhile (fun c => c ≠ '.')
    let fracPart := (l.dropWhile (fun c => c ≠ '.')).drop 1
    some ((digitsVal intPart : ℚ) + (digitsVal fracPart : ℚ) / 10 ^ fracPart.length)
  else none

/-- Python `int(s.replace(',', ''))` on a capture of `[\\d,]+`: `none`
(ValueError) when nothing but commas was captured. -/
def pyIntCommas (l : List Char) : Option Int :=
  let ds := l.filter (fun c => c ≠ ',')
  if ds.isEmpty then none else some (digitsVal ds)

/-- Match `(\\w+/\\w+) (\\w+)` anchored at the head of the list. -/
def pairSignalAt (s : List Char) : Option (List Char × List Char) :=
  let w1 := s.takeWhile isWordCh
  if w1.isEmpty then none
  else
    match s.drop w1.length with
    | '/' :: r1 =>
      let w2 := r1.takeWhile isWordCh
      if w2.isEmpty then none
      else
        match r1.drop w2.length with
        | ' ' :: r2 =>
          let w3 := r2.takeWhile isWordCh
          if w3.isEmpty then none else some (w1 ++ '/' :: w2, w3)
        | _ => none
    | _ => none

/-- Search `(\\w+/\\w+) (\\w+)`, leftmost start first. -/
def searchPairSignal : List Char → Option (List Char × List Char)
  | [] => none
  | c :: cs =>
    match pairSignalAt (c :: cs) with
    | some r => some r
    | none => searchPairSignal cs

/-- Search `lit` then `(\\d+)` then the literal `post` character
(the `Confidence: (\\d+)%` pattern). -/
def findDigitsThen (lit : List Char) (post : Char) : List Char → Option (List Char)
  | [] => none
  | c :: cs =>
    if startsWithCl lit (c :: cs) then
      let rest := (c :: cs).drop lit.length
      let ds := rest.takeWhile isDigitCh
      if ds.isEmpty then findDigitsThen lit post cs
      else
        match rest.drop ds.length with
        | p :: _ => if p = post then some ds else findDigitsThen lit post cs
        | [] => findDigitsThen lit post cs
    else findDigitsThen lit post cs

/-- Search `lit` then `(\\w+/\\w+)` then a colon
(the `Signal found for (\\w+/\\w+):` pattern). -/
def findPairColon (lit : List Char) : List Char → Option (List Char)
  | [] => none
  | c :: cs =>
    match
      (if startsWithCl lit (c :: cs) then
        let rest := (c :: cs).drop lit.length
        let w1 := rest.takeWhile isWordCh
        if w1.isEmpty then none
        else
          match rest.drop w1.length with
          | '/' :: r1 =>
            let w2 := r1.takeWhile isWordCh
            if w2.isEmpty then none
            else
              match r1.drop w2.length with
              | ':' :: _ => some (w1 ++ '/' :: w2)
              | _ => none
          | _ => none
      else none) with
    | some r => some r
    | none => findPairColon lit cs

/-- Search `: (\\w+) \\(`. -/
def findWordParen : List Char → Option (List Char)
  | [] => none
  | c :: cs =>
    match
      (match c :: cs with
      | ':' :: ' ' :: rest =>
        let w := rest.takeWhile isWordCh
        if w.isEmpty then none
        else
          match rest.drop w.length with
          | ' ' :: '(' :: _ => some w
          | _ => none
      | _ => none) with
    | some r => some r
    | none => findWordParen cs

/-! Timestamps.  The regex
`(\\d{4}-\\d{2}-\\d{2} \\d{2}:\\d{2}:\\d{2})` captures a fixed-shape text;
`datetime.strptime(..., '%Y-%m-%d %H:%M:%S')` then raises `ValueError` on
an invalid calendar value.  A parsed datetime is represented by its six
fields and converted to epoch seconds with the standard civil-date
formula; only the success/failure split is load-bearing for the claims. -/

structure DT where
  y : Nat
  mo : Nat
  d : Nat
  h : Nat
  mi : Nat
  s : Nat
  deriving DecidableEq, Repr

def twoDig (a b : Char) : Nat := (a.toNat - 48) * 10 + (b.toNat - 48)

/-- Match the timestamp regex anchored at the head of the list. -/
def tsAt : List Char → Option DT
  | y1 :: y2 :: y3 :: y4 :: '-' :: m1 :: m2 :: '-' :: d1 :: d2 :: ' ' ::
      h1 :: h2 :: ':' :: n1 :: n2 :: ':' :: s1 :: s2 :: _ =>
    if [y1, y2, y3, y4, m1, m2, d1, d2, h1, h2, n1, n2, s1, s2].all isDigitCh then
      some
        { y := digitsVal [y1, y2, y3, y4]
          mo := twoDig m1 m2
          d := twoDig d1 d2
          h := twoDig h1 h2
          mi := twoDig n1 n2
          s := twoDig s1 s2 }
    else none
  | _ => none

def searchTS : List Char → Option DT
  | [] => none
  | c :: cs =>
    match tsAt (c :: cs) with
    | some dt => some dt
    | none => searchTS cs

def isLeapYear (y : Nat) : Bool := y % 4 = 0 && (y % 100 ≠ 0 || y % 400 = 0)

def daysInMonth (y m : Nat) : Nat :=
  if m = 2 then (if isLeapYear y then 29 else 28)
  else if m = 4 || m = 6 || m = 9 || m = 11 then 30
  else 31

/-- The calendar values `strptime` accepts. -/
def validDT (t : DT) : Bool :=
  decide (1 ≤ t.y) && decide (1 ≤ t.mo) && decide (t.mo ≤ 12) &&
  decide (1 ≤ t.d) && decide (t.d ≤ daysInMonth t.y t.mo) &&
  decide (t.h ≤ 23) && decide (t.mi ≤ 59) && decide (t.s ≤ 59)

def daysFromCivil (y m d : Nat) : Int :=
  let yy := if m ≤ 2 then y - 1 else y
  let era := yy / 400
  let yoe := yy % 400
  let mp := if 2 < m then m - 3 else m + 9
  let doy := (153 * mp + 2) / 5 + d - 1
  let doe := yoe * 365 + yoe / 4 - yoe / 100 + doy
  (era : Int) * 146097 + (doe : Int) - 719468

def dtToEpoch (t : DT) : Int :=
  daysFromCivil t.y t.mo t.d * 86400 + (t.h * 3600 + t.mi * 60 + t.s : Nat)

/-- Model of `datetime.strptime` on a regex-shaped capture: the epoch value on a
valid calendar datetime, `none` (ValueError) otherwise. -/
def strptimeDT (t : DT) : Option ℚ :=
  if validDT t then some ((dtToEpoch t : Int) : ℚ) else none

/-- The shared source idiom
`timestamp = strptime(m.group(1)) if m else datetime.now()`:
no regex match falls back to `now`; a match with an invalid calendar value
raises (`none`), which the enclosing per-line `try` turns into a skipped
line. -/
def tsOrNow (l : List Char) (now : ℚ) : Option ℚ :=
  match searchTS l with
  | none => some now
  | some dt => strptimeDT dt

/-! The historical log parser `parse_bot_decisions`
(`historical_performance_analyzer.py` lines 330-439): a fold over the
lines of the log text, threading the single in-progress builder
(`current_decision`) and the emitted list (`decisions`).  Each line runs
an `elif` chain inside a `try`: an exception (invalid `strptime` value, or
`float` on a degenerate capture) skips the line, leaving the state
unchanged — in the source every mutation happens after the operation that
could raise, so a skipped line mutates nothing. -/

/-- The `BotDecision` dataclass (lines 43-56). -/
structure BotDecision where
  timestamp : ℚ
  pair : String
  signal_type : String
  confidence : ℚ
  entry_price : ℚ
  target_price : ℚ
  stop_loss : ℚ
  action_taken : String
  rejection_reason : Option String
  expected_profit : ℚ
  risk_reward_ratio : ℚ
  deriving DecidableEq, Repr

/-- The builder opened on a "trade executed" marker line (lines 349-358). -/
def freshDecision (ts : ℚ) : BotDecision :=
  { timestamp := ts
    pair := ""
    signal_type := ""
    confidence := 0
    entry_price := 0
    target_price := 0
    stop_loss := 0
    action_taken := "EXECUTED"
    rejection_reason := none
    expected_profit := 0
    risk_reward_ratio := 0 }

/-- The standalone record emitted on a "signal rejected" line
(lines 409-420). -/
def rejDecision (ts : ℚ) (reason : String) : BotDecision :=
  { timestamp := ts
    pair := "UNKNOWN"
    signal_type := "UNKNOWN"
    confidence := 0
    entry_price := 0
    target_price := 0
    stop_loss := 0
    action_taken := "REJECTED"
    rejection_reason := some reason
    expected_profit := 0
    risk_reward_ratio := 0 }

def execMarkerS : String := "✅ ULTRA-REFINED TRADE EXECUTED:"
def chartS : String := "📊"
def pipeS : String := "|"
def entryS : String := "Entry:"
def stopLossS : String := "Stop Loss:"
def takeProfitS : String := "Take Profit:"
def rrS : String := "Risk/Reward:"
def rejS : String := "❌ Signal rejected:"
def sigFoundS : String := "Signal found for"
def confS : String := "Confidence:"
def posSizeS : String := "Position Size:"
def entryCapS : String := "Entry: "
def stopLossCapS : String := "Stop Loss: "
def takeProfitCapS : String := "Take Profit: "
def rrCapS : String := "Risk/Reward: "
def posSizeCapS : String := "Position Size: "
def sigRejCapS : String := "Signal rejected: "
def confCapS : String := "Confidence: "
def sigFoundCapS : String := "Signal found for "
def jpyS : String := "JPY"

def execMarkerIn (l : List Char) : Bool := containsCl execMarkerS.data l
def detailIn (l : List Char) : Bool := containsCl chartS.data l && containsCl pipeS.data l
def entryIn (l : List Char) : Bool := containsCl entryS.data l
def stopIn (l : List Char) : Bool := containsCl stopLossS.data l
def takeIn (l : List Char) : Bool := containsCl takeProfitS.data l
def rrIn (l : List Char) : Bool := containsCl rrS.data l
def rejIn (l : List Char) : Bool := containsCl rejS.data l
def sigFoundIn (l : List Char) : Bool :=
  containsCl sigFoundS.data l && containsCl confS.data l

/-- Combined numeric-field read `float(re.search(lit ++ r'([\\d.]+)', line)
.group(1))`: `none` both when the regex fails (field left untouched) and
when `float` raises (line skipped) — in either case the parser state is
unchanged, so the two outcomes coincide observably. -/
def capValue (lit l : List Char) : Option ℚ :=
  match findCapture lit isNumCh l with
  | some cap => pyFloat cap
  | none => none

/-- The captured free-text reason of a "signal rejected" line, with the
source's fallback `"Unknown"` when `Signal rejected: (.+)` does not match
(no text, or no space after the colon). -/
def reasonOf (l : List Char) : String :=
  match findCapture sigRejCapS.data (fun ch => ch ≠ '\n') l with
  | some cap => String.mk cap
  | none => "Unknown"

/-- Sealing of the builder on its risk/reward line (lines 383-399): set the
ratio, derive pip size from a `JPY` substring of the pair, compute the
expected profit, and emit. -/
def sealBD (b : BotDecision) (v : ℚ) : BotDecision :=
  let pip : ℚ := if containsCl jpyS.data b.pair.data then 1 / 100 else 1 / 10000
  let pips : ℚ :=
    if b.signal_type = "BUY" then (b.target_price - b.entry_price) / pip
    else (b.entry_price - b.target_price) / pip
  { b with risk_reward_ratio := v, expected_profit := pips * 10 }

/-- One line of `parse_bot_decisions`: the `elif` chain of lines 341-431
on the state `(current_decision, decisions)`. -/
def stepBD (now : ℚ) (st : Option BotDecision × List BotDecision) (line : String) :
    Option BotDecision × List BotDecision :=
  let l := line.data
  if execMarkerIn l then
    match tsOrNow l now with
    | some ts => (some (freshDecision ts), st.2)
    | none => st
  else if st.1.isSome && detailIn l then
    match searchPairSignal l with
    | some ps =>
      (st.1.map (fun b => { b with pair := String.mk ps.1, signal_type := String.mk ps.2 }),
       st.2)
    | none => st
  else if st.1.isSome && entryIn l then
    match capValue entryCapS.data l with
    | some v => (st.1.map (fun b => { b with entry_price := v }), st.2)
    | none => st
  else if st.1.isSome && stopIn l then
    match capValue stopLossCapS.data l with
    | some v => (st.1.map (fun b => { b with stop_loss := v }), st.2)
    | none => st
  else if st.1.isSome && takeIn l then
    match capValue takeProfitCapS.data l with
    | some v => (st.1.map (fun b => { b with target_price := v }), st.2)
    | none => st
  else if st.1.isSome && rrIn l then
    match capValue rrCapS.data l with
    | some v =>
      match st.1 with
      | some b => (none, st.2 ++ [sealBD b v])
      | none => st
    | none => st
  else if rejIn l then
    match tsOrNow l now with
    | some ts => (st.1, st.2 ++ [rejDecision ts (reasonOf l)])
    | none => st
  else if sigFoundIn l then
    match findDigitsThen confCapS.data '%' l, findPairColon sigFoundCapS.data l,
      findWordParen l, st.1 with
    | some ds, some pr, some w, some b =>
      (some { b with
          confidence := (digitsVal ds : ℚ) / 100
          pair := String.mk pr
          signal_type := String.mk w }, st.2)
    | _, _, _, _ => st
  else st

def splitNlAux (cur : List Char) : List Char → List (List Char)
  | [] => [cur.reverse]
  | c :: cs => if c = '\n' then cur.reverse :: splitNlAux [] cs else splitNlAux (c :: cur) cs

/-- Python `s.split('\n')`: the segments between newlines, keeping empty
segments (so one more segment than newlines). -/
def pySplitLines (s : String) : List String := (splitNlAux [] s.data).map String.mk

/-- Model of `parse_bot_decisions`: empty text returns `[]` (the `if not
log_content` guard); otherwise fold the `elif` chain over
`log_content.split('\n')`. -/
def parseBotDecisions (now : ℚ) (content : String) : List BotDecision :=
  if content = "" then []
  else ((pySplitLines content).foldl (stepBD now) (none, [])).2

/-! The live executed-trade parser `_parse_executed_trade`
(`live_trading_performance_analyzer.py` lines 283-352), claim C9. -/

/-- Accumulator of the detail-scanning loop (`trade_details`). -/
structure TradeDetails where
  entry_price : Option ℚ
  target_price : Option ℚ
  stop_loss : Option ℚ
  units : Option Int
  risk_reward_ratio : Option ℚ
  deriving DecidableEq, Repr

def emptyDetails : TradeDetails :=
  { entry_price := none, target_price := none, stop_loss := none,
    units := none, risk_reward_ratio := none }

/-- One line of the detail loop (lines 295-322): five independent `if`
blocks; a failing `float`/`int` raises out of the whole function
(`none`). -/
def scanDetailLine (td0 : TradeDetails) (l : List Char) : Option TradeDetails := do
  let td1 ←
    if entryIn l then
      match findCapture entryCapS.data isNumCh l with
      | some cap => (pyFloat cap).map (fun v => { td0 with entry_price := some v })
      | none => some td0
    else some td0
  let td2 ←
    if stopIn l then
      match findCapture stopLossCapS.data isNumCh l with
      | some cap => (pyFloat cap).map (fun v => { td1 with stop_loss := some v })
      | none => some td1
    else some td1
  let td3 ←
    if takeIn l then
      match findCapture takeProfitCapS.data isNumCh l with
      | some cap => (pyFloat cap).map (fun v => { td2 with target_price := some v })
      | none => some td2
    else some td2
  let td4 ←
    if containsCl posSizeS.data l then
      match findCapture posSizeCapS.data isIntCommaCh l with
      | some cap => (pyIntCommas cap).map (fun v => { td3 with units := some v })
      | none => some td3
    else some td3
  if rrIn l then
    match findCapture rrCapS.data isNumCh l with
    | some cap => (pyFloat cap).map (fun v => { td4 with risk_reward_ratio := some v })
    | none => some td4
  else some td4

def idxOfAux (line : String) : List String → Nat → Option Nat
  | [], _ => none
  | s :: rest, n => if s = line then some n else idxOfAux line rest (n + 1)

/-- Model of `_parse_executed_trade(line, all_lines)`: scan the window
`range(max(0, idx-5), min(len, idx+10))` for labeled fields, read the
timestamp (falling back to `now`), require the `(\\w+/\\w+) (\\w+)` pair
match on the line itself, and build the intention — with the hard-coded
`confidence=0.65`.  Any exception yields `None`. -/
def parseExecutedTrade (line : String) (all_lines : List String) (now : ℚ) :
    Option BotTradeIntention :=
  let idx : Int :=
    match idxOfAux line all_lines 0 with
    | some n => (n : Int)
    | none => -1
  let lo : Nat := (max 0 (idx - 5)).toNat
  let hi : Int := min (all_lines.length : Int) (idx + 10)
  let window := ((all_lines.drop lo).take ((hi - lo).toNat)).map String.data
  (window.foldlM scanDetailLine emptyDetails).bind fun td =>
    (tsOrNow line.data now).bind fun ts =>
      (searchPairSignal line.data).map fun ps =>
          { timestamp := ts
            pair := String.mk ps.1
            signal_type := String.mk ps.2
            confidence := 65 / 100
            entry_price := td.entry_price.getD 0
            target_price := td.target_price.getD 0
            stop_loss := td.stop_loss.getD 0
            expected_units := td.units.getD 0
            expected_profit := 0
            expected_loss := 0
            risk_reward_ratio := td.risk_reward_ratio.getD 0
            rejection_reason := none
            executed := true }

/-- A successful capture is never empty (the `+` of the capture class). -/
theorem findCapture_ne_nil (lit : List Char) (cls : Char → Bool) :
    ∀ (l cap : List Char), findCapture lit cls l = some cap → cap ≠ []
  | [], cap, h => by simp [findCapture] at h
  | c :: cs, cap, h => by
    unfold findCapture at h
    by_cases hs : startsWithCl lit (c :: cs) = true
    · rw [if_pos hs] at h
      by_cases he : (((c :: cs).drop lit.length).takeWhile cls).isEmpty = true
      · rw [if_pos he] at h
        exact findCapture_ne_nil lit cls cs cap h
      · rw [if_neg he] at h
        cases h
        intro hnil
        exact he (by rw [hnil]; rfl)
    · rw [if_neg hs] at h
      exact findCapture_ne_nil lit cls cs cap h

/-- The rejection reason is never empty: a successful capture has at least
one character, and the fallback is the literal `"Unknown"`. -/
theorem reasonOf_ne_empty (l : List Char) : reasonOf l ≠ "" := by
  unfold reasonOf
  cases hf : findCapture sigRejCapS.data (fun ch => ch ≠ '\n') l with
  | none => decide
  | some cap =>
    have hne := findCapture_ne_nil _ _ _ _ hf
    intro h
    exact hne (by simpa using congrArg String.data h)

/-- Per-line effect on the emitted list: unchanged, extended by one
REJECTED record, or extended by the sealed builder of a successfully read
risk/reward line (and then the builder is closed). -/
theorem stepBD_acc_cases (now : ℚ) (st : Option BotDecision × List BotDecision)
    (line : String) :
    (stepBD now st line).2 = st.2 ∨
    (stepBD now st line).2 =
      st.2 ++ [rejDecision ((tsOrNow line.data now).getD 0) (reasonOf line.data)] ∨
    (st.1.isSome = true ∧ rrIn line.data = true ∧
      (capValue rrCapS.data line.data).isSome = true ∧
      (stepBD now st line).2 =
        st.2 ++ [sealBD (st.1.getD (freshDecision 0))
          ((capValue rrCapS.data line.data).getD 0)] ∧
      (stepBD now st line).1 = none) := by
  by_cases h1 : execMarkerIn line.data = true
  · cases hts : tsOrNow line.data now with
    | none => left; simp [stepBD, h1, hts]
    | some ts => left; simp [stepBD, h1, hts]
  · by_cases h2 : (st.1.isSome && detailIn line.data) = true
    · cases hps : searchPairSignal line.data with
      | none => left; simp [stepBD, h1, h2, hps]
      | some ps => left; simp [stepBD, h1, h2, hps]
    · by_cases h3 : (st.1.isSome && entryIn line.data) = true
      · cases hv : capValue entryCapS.data line.data with
        | none => left; simp [stepBD, h1, h2, h3, hv]
        | some v => left; simp [stepBD, h1, h2, h3, hv]
      · by_cases h4 : (st.1.isSome && stopIn line.data) = true
        · cases hv : capValue stopLossCapS.data line.data with
          | none => left; simp [stepBD, h1, h2, h3, h4, hv]
          | some v => left; simp [stepBD, h1, h2, h3, h4, hv]
        · by_cases h5 : (st.1.isSome && takeIn line.data) = true
          · cases hv : capValue takeProfitCapS.data line.data with
            | none => left; simp [stepBD, h1, h2, h3, h4, h5, hv]
            | some v => left; simp [stepBD, h1, h2, h3, h4, h5, hv]
          · by_cases h6 : (st.1.isSome && rrIn line.data) = true
            · cases hcur : st.1 with
              | none => rw [hcur] at h6; simp at h6
              | some b =>
                have h6b : rrIn line.data = true := by
                  rw [hcur] at h6
                  simpa using h6
                cases hv : capValue rrCapS.data line.data with
                | none => left; simp [stepBD, h1, h2, h3, h4, h5, h6, hv]
                | some v =>
                  have hd2 : ¬ detailIn line.data = true := by
                    rw [hcur] at h2
                    simpa using h2
                  have hd3 : ¬ entryIn line.data = true := by
                    rw [hcur] at h3
                    simpa using h3
                  have hd4 : ¬ stopIn line.data = true := by
                    rw [hcur] at h4
                    simpa using h4
                  have hd5 : ¬ takeIn line.data = true := by
                    rw [hcur] at h5
                    simpa using h5
                  right; right
                  refine ⟨rfl, h6b, rfl, ?_, ?_⟩
                  · simp [stepBD, h1, hd2, hd3, hd4, hd5, h6b, hv, hcur]
                  · simp [stepBD, h1, hd2, hd3, hd4, hd5, h6b, hv, hcur]
            · by_cases h7 : rejIn line.data = true
              · cases hts : tsOrNow line.data now with
                | none => left; simp [stepBD, h1, h2, h3, h4, h5, h6, h7, hts]
                | some ts =>
                  right; left
                  simp [stepBD, h1, h2, h3, h4, h5, h6, h7, hts]
              · by_cases h8 : sigFoundIn line.data = true
                · left
                  have hred : (stepBD now st line).2 = st.2 := by
                    simp [stepBD, h1, h2, h3, h4, h5, h6, h7, h8]
                    split <;> rfl
                  exact hred
                · left; simp [stepBD, h1, h2, h3, h4, h5, h6, h7, h8]

/-- Over a run whose lines never carry the risk/reward field, everything
emitted beyond the starting list is a REJECTED record. -/
theorem foldl_no_rr_only_rejected (now : ℚ) :
    ∀ (lines : List String) (st : Option BotDecision × List BotDecision),
      (∀ line ∈ lines, rrIn line.data = false) →
      ∀ d ∈ (lines.foldl (stepBD now) st).2, d ∈ st.2 ∨ d.action_taken = "REJECTED"
  | [], st, _, d, hd => Or.inl hd
  | line :: rest, st, hrr, d, hd => by
    have hr := foldl_no_rr_only_rejected now rest (stepBD now st line)
      (fun u hu => hrr u (List.mem_cons_of_mem line hu)) d hd
    rcases hr with hmem | hrej
    · rcases stepBD_acc_cases now st line with hc | hc | hc
      · rw [hc] at hmem
        exact Or.inl hmem
      · rw [hc] at hmem
        rcases List.mem_append.mp hmem with hm | hm
        · exact Or.inl hm
        · right
          rcases List.mem_singleton.mp hm with rfl
          rfl
      · exact absurd hc.2.1 (by rw [hrr line (List.mem_cons_self line rest)]; simp)
    · exact Or.inr hrej

/-- Amended C5.  Builder lifecycle of `parse_bot_decisions`:
a "trade executed" marker line whose embedded timestamp is absent or valid
opens a fresh builder (discarding any unfinished one without emitting it);
fresh builders carry outcome EXECUTED; a risk/reward field line with a
readable number seals and emits the open builder (and only then); per
line, the emitted list otherwise grows only by standalone REJECTED
records; and over a log whose lines never carry the risk/reward field,
nothing with outcome EXECUTED is ever emitted.  (The amendment against the
claim: a marker line embedding a timestamp-shaped text with an invalid
calendar value raises in `strptime` and is skipped, leaving the previous
builder open — see the counterexample.) -/
theorem executed_builder_lifecycle :
    (∀ (now : ℚ) (st : Option BotDecision × List BotDecision) (line : String) (ts : ℚ),
      execMarkerIn line.data = true → tsOrNow line.data now = some ts →
      stepBD now st line = (some (freshDecision ts), st.2)) ∧
    (∀ ts : ℚ, (freshDecision ts).action_taken = "EXECUTED") ∧
    (∀ (now : ℚ) (b : BotDecision) (acc : List BotDecision) (line : String) (v : ℚ),
      execMarkerIn line.data = false → detailIn line.data = false →
      entryIn line.data = false → stopIn line.data = false → takeIn line.data = false →
      rrIn line.data = true → capValue rrCapS.data line.data = some v →
      stepBD now (some b, acc) line = (none, acc ++ [sealBD b v]) ∧
      (sealBD b v).action_taken = b.action_taken) ∧
    (∀ (now : ℚ) (st : Option BotDecision × List BotDecision) (line : String),
      (stepBD now st line).2 = st.2 ∨
      (stepBD now st line).2 =
        st.2 ++ [rejDecision ((tsOrNow line.data now).getD 0) (reasonOf line.data)] ∨
      (st.1.isSome = true ∧ rrIn line.data = true ∧
        (capValue rrCapS.data line.data).isSome = true ∧
        (stepBD now st line).2 =
          st.2 ++ [sealBD (st.1.getD (freshDecision 0))
            ((capValue rrCapS.data line.data).getD 0)] ∧
        (stepBD now st line).1 = none)) ∧
    (∀ (now : ℚ) (content : String),
      (∀ line ∈ pySplitLines content, rrIn line.data = false) →
      ∀ d ∈ parseBotDecisions now content, d.action_taken = "REJECTED") := by
  refine ⟨?_, fun ts => rfl, ?_, fun now st line => stepBD_acc_cases now st line, ?_⟩
  · intro now st line ts hm hts
    simp [stepBD, hm, hts]
  · intro now b acc line v hm hd he hs htk hrr hcap
    constructor
    · simp [stepBD, hm, hd, he, hs, htk, hrr, hcap]
    · simp [sealBD]
  · intro now content h d hd
    unfold parseBotDecisions at hd
    by_cases hc : content = ""
    · rw [if_pos hc] at hd
      simp at hd
    · rw [if_neg hc] at hd
      rcases foldl_no_rr_only_rejected now (pySplitLines content) (none, []) h d hd with
        hmem | hrej
      · simp at hmem
      · exact hrej

/-- An unfinished builder whose pair and entry price were already read. -/
def exBuilder : BotDecision :=
  { freshDecision 0 with pair := "GBP/USD", entry_price := 5 }

/-- A marker line embedding a timestamp-shaped text with month 13. -/
def invalidMarkerLine : String := "2024-13-01 00:00:00 ✅ ULTRA-REFINED TRADE EXECUTED:"

/-- Counterexample to C5.  The claim says the extractor opens a new
builder at *each* "trade executed" marker line, discarding any unfinished
previous builder.  `invalidMarkerLine` contains the marker, but its
timestamp-shaped text `2024-13-01 00:00:00` makes `strptime` raise, the
per-line `try` skips the line, and the previous unfinished builder (with
its non-fresh `entry_price = 5`; every freshly opened builder has
`entry_price = 0`) survives untouched instead of being discarded for a new
one. -/
theorem marker_line_keeps_unfinished_builder :
    execMarkerIn invalidMarkerLine.data = true ∧
    tsOrNow invalidMarkerLine.data 0 = none ∧
    stepBD 0 (some exBuilder, []) invalidMarkerLine = (some exBuilder, []) ∧
    exBuilder.entry_price = 5 ∧ (freshDecision 0).entry_price = 0 :=
  ⟨rfl, rfl, rfl, rfl, rfl⟩

def wGoodMarkerLine : String := "2024-06-01 08:15:27 ✅ ULTRA-REFINED TRADE EXECUTED:"

def wT1 : ℚ := ((dtToEpoch { y := 2024, mo := 6, d := 1, h := 8, mi := 15, s := 27 } : Int) : ℚ)

def wRRLine : String := "📈 Risk/Reward: 2.0"

def wRRv : ℚ := (capValue rrCapS.data wRRLine.data).getD 0

/-- Witness for the amended C5: a valid marker line opens a fresh builder
over `exBuilder` (discarding it), and a risk/reward line seals and emits
the open builder. -/
theorem executed_builder_lifecycle_witness :
    stepBD 0 (some exBuilder, []) wGoodMarkerLine = (some (freshDecision wT1), []) ∧
    stepBD 0 (some exBuilder, []) wRRLine = (none, [] ++ [sealBD exBuilder wRRv]) :=
  ⟨executed_builder_lifecycle.1 0 (some exBuilder, []) wGoodMarkerLine wT1 rfl rfl,
   (executed_builder_lifecycle.2.2.1 0 exBuilder [] wRRLine wRRv
      rfl rfl rfl rfl rfl rfl rfl).1⟩

/-- Amended C6.  A "signal rejected" line (that no earlier branch of
the `elif` chain consumes and whose embedded timestamp is absent or valid)
emits exactly one standalone REJECTED record, leaving any in-progress
builder untouched; its `rejection_reason` is non-empty: the trailing text
after `Signal rejected: ` verbatim when the pattern matches, and the
fallback `"Unknown"` otherwise. -/
theorem rejected_emission (now : ℚ) (cur : Option BotDecision)
    (acc : List BotDecision) (line : String) (ts : ℚ)
    (h1 : execMarkerIn line.data = false)
    (h2 : (cur.isSome && detailIn line.data) = false)
    (h3 : (cur.isSome && entryIn line.data) = false)
    (h4 : (cur.isSome && stopIn line.data) = false)
    (h5 : (cur.isSome && takeIn line.data) = false)
    (h6 : (cur.isSome && rrIn line.data) = false)
    (h7 : rejIn line.data = true)
    (hts : tsOrNow line.data now = some ts) :
    stepBD now (cur, acc) line = (cur, acc ++ [rejDecision ts (reasonOf line.data)]) ∧
    (rejDecision ts (reasonOf line.data)).action_taken = "REJECTED" ∧
    (rejDecision ts (reasonOf line.data)).rejection_reason =
      some (reasonOf line.data) ∧
    reasonOf line.data ≠ "" := by
  refine ⟨?_, rfl, rfl, reasonOf_ne_empty line.data⟩
  simp [stepBD, h1, h2, h3, h4, h5, h6, h7, hts]

/-- A rejected-marker line with no trailing text after the colon. -/
def noTailRejLine : String := "2024-06-01 14:45:32 ❌ Signal rejected:"

def rejTS : ℚ := ((dtToEpoch { y := 2024, mo := 6, d := 1, h := 14, mi := 45, s := 32 } : Int) : ℚ)

/-- Counterexample to C6.  The claim says every emitted REJECTED record
captures its reason verbatim from the trailing text of the line.  On a
"signal rejected" line with nothing after the colon the capture pattern
`Signal rejected: (.+)` finds nothing, and the emitted record carries the
fallback `"Unknown"` — a reason not captured from the line's (empty)
trailing text. -/
theorem rejected_reason_falls_back_to_unknown :
    stepBD 0 (none, []) noTailRejLine = (none, [rejDecision rejTS "Unknown"]) ∧
    findCapture sigRejCapS.data (fun ch => ch ≠ '\n') noTailRejLine.data = none ∧
    (rejDecision rejTS "Unknown").rejection_reason = some "Unknown" :=
  ⟨rfl, rfl, rfl⟩

/-- A rejected-marker line with a trailing reason. -/
def wRejLine : String := "2024-06-01 14:45:32 ❌ Signal rejected: Low confidence 58%"

/-- Witness for the amended C6: the trailing text is captured verbatim and
emitted as a standalone REJECTED record with the builder (here `none`)
untouched. -/
theorem rejected_emission_witness :
    (stepBD 0 (none, []) wRejLine =
      (none, [] ++ [rejDecision rejTS (reasonOf wRejLine.data)]) ∧
     (rejDecision rejTS (reasonOf wRejLine.data)).action_taken = "REJECTED" ∧
     (rejDecision rejTS (reasonOf wRejLine.data)).rejection_reason =
       some (reasonOf wRejLine.data) ∧
     reasonOf wRejLine.data ≠ "") ∧
    reasonOf wRejLine.data = "Low confidence 58%" :=
  ⟨rejected_emission 0 none [] wRejLine rejTS rfl rfl rfl rfl rfl rfl rfl rfl, rfl⟩

/-- Claim C9.  Every intention the live executed-trade parser produces has
`confidence` exactly `0.65`, the hard-coded default of line 339, whatever
the log text says. -/
theorem parseExecutedTrade_confidence :
    ∀ (line : String) (all_lines : List String) (now : ℚ) (i : BotTradeIntention),
      parseExecutedTrade line all_lines now = some i → i.confidence = 65 / 100 := by
  intro line all_lines now i h
  unfold parseExecutedTrade at h
  rw [Option.bind_eq_some] at h
  rcases h with ⟨td, htd, h⟩
  rw [Option.bind_eq_some] at h
  rcases h with ⟨ts, hts, h⟩
  rw [Option.map_eq_some'] at h
  rcases h with ⟨ps, hps, h⟩
  rw [← h]

def wExecLine : String := "EUR/USD BUY"

/-- The intention `_parse_executed_trade` produces from `wExecLine` alone. -/
def wExecIntent : BotTradeIntention :=
  { timestamp := 0
    pair := "EUR/USD"
    signal_type := "BUY"
    confidence := 65 / 100
    entry_price := 0
    target_price := 0
    stop_loss := 0
    expected_units := 0
    expected_profit := 0
    expected_loss := 0
    risk_reward_ratio := 0
    rejection_reason := none
    executed := true }

/-- Witness for C9 at a concrete successfully parsed line. -/
theorem parseExecutedTrade_confidence_witness :
    wExecIntent.confidence = 65 / 100 :=
  parseExecutedTrade_confidence wExecLine [] 0 wExecIntent (by rfl)

end JamesBot
